import Mathlib

/-!
# Verification of the semi-vo-maker server (`src/server.js`)

This file is a shallow embedding, in Lean 4, of the request handlers of
`src/server.js` — a small Express server that

* `POST /generate`: validates caller-supplied vehicle specs, calls a remote
  text-generation endpoint once to obtain a list of script variants, then for
  each variant (sequentially) calls a remote speech-synthesis endpoint and
  writes `vo_<ordinal>.mp3` under a fresh batch directory, returning one file
  entry per variant;
* `POST /zip`: resolves a list of previously returned public URLs back to
  paths below the server directory and streams a zip archive of the files
  that exist;
* `GET /health` plus an optional `X-APP-KEY` shared-secret middleware.

External effects (network calls, the filesystem, the uuid generator) are
modelled as explicit parameters and as explicit output fields: the remote
chat call is an oracle value of type `ChatOutcome`, each speech-synthesis
call is an oracle `tts : Nat → Option String` (`none` = success, `some e` =
the call throws with message `e`), the uuid is a parameter, and the files and
directories the handler creates are returned in the `GenOutcome` record.
Filesystem paths are modelled as lists of path segments.
-/

/-! ## Decimal rendering

`src/server.js` builds file names with the template `vo_${i + 1}.mp3`; the
embedding renders the ordinal with `Nat.repr`, Lean's decimal rendering of a
natural number.  To reason about distinctness of the generated file names we
prove that `Nat.repr` is injective, via a fuel-free recursion `repDigits`
equal to `Nat.toDigitsCore` and a left inverse `undigits`. -/

/-- Fuel-free most-significant-first decimal digit list of a natural. -/
def repDigits (n : Nat) : List Char :=
  if n < 10 then [Nat.digitChar n]
  else repDigits (n / 10) ++ [Nat.digitChar (n % 10)]
termination_by n
decreasing_by
  exact Nat.div_lt_self (by omega) (by decide)

/-- Decode a decimal digit-character list back to the natural it denotes. -/
def undigits (cs : List Char) : Nat :=
  cs.foldl (fun a c => a * 10 + (c.toNat - 48)) 0

theorem digitChar_toNat_sub_48 : ∀ d, d < 10 → (Nat.digitChar d).toNat - 48 = d := by
  decide

theorem toDigitsCore_eq_repDigits :
    ∀ n fuel ds, n < fuel → Nat.toDigitsCore 10 fuel n ds = repDigits n ++ ds := by
  intro n
  induction n using Nat.strong_induction_on with
  | _ n ih =>
    intro fuel ds hlt
    match fuel with
    | 0 => omega
    | f + 1 =>
      show (if n / 10 = 0 then Nat.digitChar (n % 10) :: ds
            else Nat.toDigitsCore 10 f (n / 10) (Nat.digitChar (n % 10) :: ds)) = _
      by_cases h10 : n < 10
      · have hdiv : n / 10 = 0 := Nat.div_eq_of_lt h10
        have hmod : n % 10 = n := Nat.mod_eq_of_lt h10
        rw [repDigits]
        simp [hdiv, hmod, h10]
      · have hdiv : n / 10 ≠ 0 := by
          intro h
          exact h10 (by omega)
        have hlt' : n / 10 < f := by
          have : n / 10 < n := Nat.div_lt_self (by omega) (by decide)
          omega
        rw [if_neg hdiv, ih (n / 10) (Nat.div_lt_self (by omega) (by decide)) f
              (Nat.digitChar (n % 10) :: ds) hlt']
        conv_rhs => rw [repDigits]
        simp [h10]

theorem repr_eq_repDigits (n : Nat) : Nat.repr n = (repDigits n).asString := by
  show (Nat.toDigitsCore 10 (n + 1) n []).asString = _
  rw [toDigitsCore_eq_repDigits n (n + 1) [] (Nat.lt_succ_self n), List.append_nil]

theorem undigits_repDigits (n : Nat) : undigits (repDigits n) = n := by
  induction n using Nat.strong_induction_on with
  | _ n ih =>
    by_cases h10 : n < 10
    · rw [repDigits]
      simp only [if_pos h10]
      show 0 * 10 + ((Nat.digitChar n).toNat - 48) = n
      rw [digitChar_toNat_sub_48 n h10]
      omega
    · rw [repDigits]
      simp only [if_neg h10]
      show (repDigits (n / 10) ++ [Nat.digitChar (n % 10)]).foldl
            (fun a c => a * 10 + (c.toNat - 48)) 0 = n
      rw [List.foldl_append]
      have hrec : undigits (repDigits (n / 10)) = n / 10 :=
        ih (n / 10) (Nat.div_lt_self (by omega) (by decide))
      show undigits (repDigits (n / 10)) * 10 + ((Nat.digitChar (n % 10)).toNat - 48) = n
      rw [hrec, digitChar_toNat_sub_48 (n % 10) (Nat.mod_lt n (by omega))]
      omega

theorem natRepr_injective : Function.Injective Nat.repr := by
  intro a b h
  rw [repr_eq_repDigits, repr_eq_repDigits] at h
  have hdata : repDigits a = repDigits b := congrArg String.data h
  have := congrArg undigits hdata
  rwa [undigits_repDigits, undigits_repDigits] at this

/-! ## Data model of `POST /generate` (`src/server.js` lines 51–112) -/

/-- Caller-supplied vehicle specs (request body field `specs`).  Only `make`
and `model` influence control flow (line 54); the remaining free-form fields
are only interpolated into the prompt string and are collected in `extra`.
A field that is absent (or otherwise non-string) in the JSON body is `none`;
a present string field is `some`. -/
structure Specs where
  make : Option String
  model : Option String
  extra : List (String × String)
deriving DecidableEq, Repr

/-- JavaScript truthiness of an optional string field: `!specs?.make` is
true exactly when the field is absent or the empty string. -/
def truthyStr : Option String → Bool
  | none => false
  | some s => s ≠ ""

/-- One variant object parsed from the chat response
(`{style, voiceover, beats, hashtags}`); `beats`/`hashtags` may be absent. -/
structure Variant where
  style : String
  voiceover : String
  beats : Option (List String)
  hashtags : Option (List String)
deriving DecidableEq, Repr

/-- One element of the `files` array of a successful `/generate` response
(lines 99–105). -/
structure FileEntry where
  label : String
  url : String
  script : String
  beats : List String
  hashtags : List String
deriving DecidableEq, Repr

/-- The HTTP response of the `/generate` handler:
`ok` = `res.json({batchId, files})` (200), `badRequest` = `res.status(400)`
with `{error}`, `serverError` = `res.status(500)` with `{error, detail}`. -/
inductive GenResponse where
  | ok (batchId : String) (files : List FileEntry)
  | badRequest (error : String)
  | serverError (error : String) (detail : String)
deriving DecidableEq, Repr

/-- The `variants` field of the parsed chat JSON (line 87).
`arr vs` — the field is an array of well-shaped variant objects;
`absent` — the parsed JSON has no such field (`undefined` in JavaScript), so
the later `variants.length` access throws a `TypeError`. -/
inductive VariantsField where
  | arr (vs : List Variant)
  | absent
deriving DecidableEq, Repr

/-- Outcome of the chat call together with response parsing (lines 75–87).
`fail e` — the fetch returned a non-ok status (line 85) or reading
`cj.choices[0].message.content` / `JSON.parse` threw (line 87), i.e. an
exception with message `e` was raised before the `variants` binding was
established.  `ok f` — line 87 completed and bound `variants` to `f`. -/
inductive ChatOutcome where
  | fail (e : String)
  | ok (field : VariantsField)
deriving DecidableEq, Repr

/-- The JavaScript `TypeError` message raised by `variants.length` when
`variants` is `undefined`. -/
def lengthTypeError : String :=
  "Cannot read properties of undefined (reading 'length')"

/-- File name of the `ord`-th voiceover, 1-based: `vo_${i + 1}.mp3`
(line 97). -/
def mkFileName (ord : Nat) : String :=
  "vo_" ++ Nat.repr ord ++ ".mp3"

/-- The batch directory `path.join(__dirname, 'public', 'voiceovers',
batchId)` (line 90), as path segments. -/
def batchDir (dirSegs : List String) (batchId : String) : List String :=
  dirSegs ++ ["public", "voiceovers", batchId]

/-- The result entry pushed for the variant at 0-based index `ord - 1`
(lines 99–105): label `VoiceOver ${i+1} — ${v.style}`, public URL
`${BASE_URL}/public/voiceovers/${batchId}/vo_${i+1}.mp3`, trimmed script,
`v.beats || []`, `(v.hashtags || []).slice(0, 6)`. -/
def mkEntry (baseUrl batchId : String) (ord : Nat) (v : Variant) : FileEntry :=
  { label := "VoiceOver " ++ Nat.repr ord ++ " — " ++ v.style
  , url := baseUrl ++ "/public/voiceovers/" ++ batchId ++ "/" ++ mkFileName ord
  , script := v.voiceover.trim
  , beats := v.beats.getD []
  , hashtags := (v.hashtags.getD []).take 6 }

/-- Result of running the per-variant loop (lines 93–106) from some start
index: the `results` array (or the thrown error message), the list of file
paths written by `ttsToMp3`, and the number of speech-synthesis calls made. -/
structure LoopOut where
  result : Except String (List FileEntry)
  written : List (List String)
  ttsCalls : Nat
deriving Repr

/-- The loop `for (let i = 0; i < variants.length; i++) { ... }`
(lines 94–106), started at index `i`.  Each iteration calls `ttsToMp3`
(oracle `tts`); on success the file `vo_${i+1}.mp3` is written into `dir`
and an entry is pushed, on failure the thrown error aborts the loop with the
files of the earlier iterations already on disk. -/
def genLoop (baseUrl batchId : String) (dir : List String)
    (tts : Nat → Option String) : List Variant → Nat → LoopOut
  | [], _ => { result := .ok [], written := [], ttsCalls := 0 }
  | v :: vs, i =>
    match tts i with
    | some e => { result := .error e, written := [], ttsCalls := 1 }
    | none =>
      let rest := genLoop baseUrl batchId dir tts vs (i + 1)
      { result := rest.result.map (fun es => mkEntry baseUrl batchId (i + 1) v :: es)
      , written := (dir ++ [mkFileName (i + 1)]) :: rest.written
      , ttsCalls := rest.ttsCalls + 1 }

/-- Observable outcome of one `POST /generate` request: the HTTP response,
how many chat (text-generation) and speech-synthesis calls were made,
whether `uuidv4()` was reached (line 89), the directories created by
`ensureDir` and the audio files written, in order. -/
structure GenOutcome where
  response : GenResponse
  chatCalls : Nat
  ttsCalls : Nat
  batchIdGenerated : Bool
  dirsCreated : List (List String)
  filesWritten : List (List String)
deriving DecidableEq, Repr

/-- The tail of the `/generate` handler after the loop of lines 93–106 ran:
on a normal exit the 200 payload of line 108 is sent, on a thrown synthesis
error the catch of lines 109–111 sends a 500; either way the batch id was
generated, its directory was created, and the loop's file writes stand. -/
def genFinish (batchId : String) (dir : List String) (lo : LoopOut) : GenOutcome :=
  match lo.result with
  | .ok entries =>
    { response := .ok batchId entries
    , chatCalls := 1, ttsCalls := lo.ttsCalls, batchIdGenerated := true
    , dirsCreated := [dir], filesWritten := lo.written }
  | .error e =>
    { response := .serverError "Generation failed" e
    , chatCalls := 1, ttsCalls := lo.ttsCalls, batchIdGenerated := true
    , dirsCreated := [dir], filesWritten := lo.written }

/-- The `POST /generate` handler (lines 51–112).  `dirSegs` is `__dirname`
as segments, `baseUrl` is `BASE_URL`, `specs` the parsed body field (`none`
when absent), `chat` the oracle for the chat call and its parsing, `tts` the
oracle for the per-variant synthesis calls, `batchId` the value `uuidv4()`
returns if reached.  Any exception is caught at line 109 and mapped to a 500
response with the error message as detail. -/
def generate (dirSegs : List String) (baseUrl : String) (specs : Option Specs)
    (chat : ChatOutcome) (tts : Nat → Option String) (batchId : String) :
    GenOutcome :=
  if ¬ (truthyStr (specs.bind (·.make)) ∧ truthyStr (specs.bind (·.model))) then
    { response := .badRequest "Missing required specs: make, model."
    , chatCalls := 0, ttsCalls := 0, batchIdGenerated := false
    , dirsCreated := [], filesWritten := [] }
  else
    match chat with
    | .fail e =>
      { response := .serverError "Generation failed" e
      , chatCalls := 1, ttsCalls := 0, batchIdGenerated := false
      , dirsCreated := [], filesWritten := [] }
    | .ok .absent =>
      { response := .serverError "Generation failed" lengthTypeError
      , chatCalls := 1, ttsCalls := 0, batchIdGenerated := true
      , dirsCreated := [batchDir dirSegs batchId], filesWritten := [] }
    | .ok (.arr variants) =>
      genFinish batchId (batchDir dirSegs batchId)
        (genLoop baseUrl batchId (batchDir dirSegs batchId) tts variants 0)

/-! ## Data model of `POST /zip` (`src/server.js` lines 119–142)

A request URL is modelled by the raw segment list of its path component
(what stands between the slashes, before WHATWG dot-segment removal).  The
WHATWG URL parser applied by `new URL(u)` (line 132) removes single- and
double-dot path segments, including their percent-encoded spellings, so
`urlRemoveDots` models the `pathname` the handler reads.  `path.join` of
`__dirname` with that absolute path string (line 133) concatenates and then
normalises; `pathJoinNorm` models this normalisation on segment lists, with
`..` at the root dropped as Node does for absolute paths.  The filesystem is
a list of existing file paths. -/

/-- ASCII lowercase of one character (the URL standard compares dot
segments ASCII-case-insensitively). -/
def lowerChar (c : Char) : Char :=
  if 65 ≤ c.toNat ∧ c.toNat ≤ 90 then Char.ofNat (c.toNat + 32) else c

/-- ASCII lowercase of a string, character by character. -/
def lowerAscii (s : String) : String :=
  String.mk (s.data.map lowerChar)

/-- A path segment the WHATWG URL parser treats as a double-dot segment. -/
def isDoubleDotSeg (s : String) : Bool :=
  lowerAscii s = ".." ∨ lowerAscii s = ".%2e" ∨ lowerAscii s = "%2e."
    ∨ lowerAscii s = "%2e%2e"

/-- A path segment the WHATWG URL parser treats as a single-dot segment. -/
def isSingleDotSeg (s : String) : Bool :=
  lowerAscii s = "." ∨ lowerAscii s = "%2e"

/-- Dot-segment removal performed by the WHATWG URL parser on the path of
`new URL(u)`: double-dot segments pop the previous segment, single-dot
segments vanish, everything else is appended. -/
def urlRemoveDots (raw : List String) : List String :=
  go [] raw
where
  go (acc : List String) : List String → List String
    | [] => acc
    | s :: rest =>
      if isDoubleDotSeg s then go acc.dropLast rest
      else if isSingleDotSeg s then go acc rest
      else go (acc ++ [s]) rest

/-- Node `path.normalize` on an absolute path given as segments: empty and
single-dot segments vanish, `..` pops the previous segment (and is dropped
at the root), everything else is appended. -/
def pathNormSegs (segs : List String) : List String :=
  go [] segs
where
  go (acc : List String) : List String → List String
    | [] => acc
    | s :: rest =>
      if s = "" ∨ s = "." then go acc rest
      else if s = ".." then go acc.dropLast rest
      else go (acc ++ [s]) rest

/-- `path.join(__dirname, p)` for the absolute URL path `p` (line 133):
concatenation followed by normalisation. -/
def diskPath (dirSegs : List String) (rawPath : List String) : List String :=
  pathNormSegs (dirSegs ++ urlRemoveDots rawPath)

/-- `path.basename` of a path given as segments: its last segment. -/
def basenameSegs (p : List String) : String :=
  p.getLast?.getD ""

/-- One entry appended to the archive (line 135): `archive.file(diskPath,
{ name: path.basename(diskPath) })`. -/
structure ZipEntry where
  name : String
  srcPath : List String
deriving DecidableEq, Repr

/-- The observable outcome of the `POST /zip` handler: a 400 response with
`{error}` (line 122), or a streamed archive with the given entries in
order. -/
inductive ZipResult where
  | badRequest (error : String)
  | archive (entries : List ZipEntry)
deriving DecidableEq, Repr

/-- The loop of lines 131–137: for each URL, resolve it to a disk path and
append an archive entry when the file exists on disk. -/
def zipLoop (dirSegs : List String) (fsFiles : List (List String)) :
    List (List String) → List ZipEntry
  | [] => []
  | u :: us =>
    let p := diskPath dirSegs u
    if p ∈ fsFiles then
      { name := basenameSegs p, srcPath := p } :: zipLoop dirSegs fsFiles us
    else
      zipLoop dirSegs fsFiles us

/-- The `POST /zip` handler (lines 119–142).  `files` is the parsed body
field (`none` when absent), each URL being the raw segment list of its path
component; `fsFiles` is the set of files existing on disk.  `!files?.length`
(line 122) is true when the field is absent or the list is empty. -/
def buildArchive (dirSegs : List String) (fsFiles : List (List String))
    (files : Option (List (List String))) : ZipResult :=
  match files with
  | none => .badRequest "No files selected."
  | some us =>
    if us.length = 0 then .badRequest "No files selected."
    else .archive (zipLoop dirSegs fsFiles us)

/-! ## Routing and the shared-secret middleware (lines 37–44)

The route table of `src/server.js`, in registration order: the `/health`
route (line 37) is registered before the `X-APP-KEY` middleware (lines
40–44), which in turn guards the `/generate` and `/zip` routes.  (The
static `/public` mount of line 17 serves files and is irrelevant to the
claims about the JSON endpoints.) -/

/-- The middleware body (lines 41–43): pass when no key is configured,
pass when the `X-APP-KEY` header equals the configured key, else 401. -/
def authAllows (appKey : String) (hdr : Option String) : Bool :=
  if appKey = "" then true
  else if hdr = some appKey then true
  else false

/-- An incoming HTTP request, reduced to what the routing layer reads. -/
structure Request where
  method : String
  urlPath : String
  xAppKey : Option String
deriving DecidableEq, Repr

/-- What the routing layer does with a request: `healthOk` = the `/health`
route answered `200 {ok: true}`; `unauthorized` = the middleware answered
`401 {error: 'Unauthorized'}` and no handler ran; `handlerRun r` = control
reached the handler registered at route `r`; `notFound` = no route
matched. -/
inductive ServeResult where
  | healthOk
  | unauthorized
  | handlerRun (route : String)
  | notFound
deriving DecidableEq, Repr

/-- The dispatch of `src/server.js` in registration order: `GET /health`
first (line 37), then the shared-secret middleware (lines 40–44), then the
`POST /generate` and `POST /zip` handlers. -/
def serve (appKey : String) (req : Request) : ServeResult :=
  if req.method = "GET" ∧ req.urlPath = "/health" then .healthOk
  else if ¬ authAllows appKey req.xAppKey then .unauthorized
  else if req.method = "POST" ∧ req.urlPath = "/generate" then .handlerRun "/generate"
  else if req.method = "POST" ∧ req.urlPath = "/zip" then .handlerRun "/zip"
  else .notFound

/-! ## Theorems: the generation pipeline -/

theorem mkFileName_injective : Function.Injective mkFileName := by
  intro a b h
  have hd := congrArg String.data h
  simp only [mkFileName, String.data_append, List.append_assoc] at hd
  have h1 : (Nat.repr a).data ++ ".mp3".data = (Nat.repr b).data ++ ".mp3".data :=
    List.append_cancel_left hd
  have h2 : (Nat.repr a).data = (Nat.repr b).data := List.append_cancel_right h1
  exact natRepr_injective (String.ext h2)

/-- Closed-form description of the loop of lines 94–106 when every
speech-synthesis call succeeds: it returns one entry per variant, in
order, and writes one ordinal-named file per variant, in order. -/
theorem genLoop_ok (baseUrl batchId : String) (dir : List String)
    (tts : Nat → Option String) :
    ∀ (vs : List Variant) (s : Nat), (∀ j, j < vs.length → tts (s + j) = none) →
      ∃ es ws,
        genLoop baseUrl batchId dir tts vs s =
          { result := .ok es, written := ws, ttsCalls := vs.length }
        ∧ es.length = vs.length ∧ ws.length = vs.length
        ∧ (∀ i v, vs[i]? = some v → es[i]? = some (mkEntry baseUrl batchId (s + i + 1) v))
        ∧ (∀ i, i < vs.length → ws[i]? = some (dir ++ [mkFileName (s + i + 1)])) := by
  intro vs
  induction vs with
  | nil =>
    intro s _
    refine ⟨[], [], rfl, rfl, rfl, ?_, ?_⟩
    · intro i v hv
      simp at hv
    · intro i hi
      simp at hi
  | cons v rest ih =>
    intro s h
    have h0 : tts s = none := by simpa using h 0 (by simp)
    obtain ⟨es, ws, hl, hes, hws, hget, hwget⟩ := ih (s + 1) (fun j hj => by
      have := h (j + 1) (by simp only [List.length_cons]; omega)
      rwa [show s + (j + 1) = s + 1 + j by omega] at this)
    refine ⟨mkEntry baseUrl batchId (s + 1) v :: es, (dir ++ [mkFileName (s + 1)]) :: ws,
      ?_, by simp [hes], by simp [hws], ?_, ?_⟩
    · unfold genLoop
      rw [h0, hl]
      rfl
    · intro i v2 hv
      cases i with
      | zero =>
        have : v = v2 := by simpa using hv
        subst this
        simp
      | succ i =>
        simp only [List.getElem?_cons_succ] at hv ⊢
        have := hget i v2 hv
        rwa [show s + 1 + i + 1 = s + (i + 1) + 1 by omega] at this
    · intro i hi
      cases i with
      | zero => simp
      | succ i =>
        simp only [List.getElem?_cons_succ]
        have := hwget i (by simp only [List.length_cons] at hi; omega)
        rwa [show s + 1 + i + 1 = s + (i + 1) + 1 by omega] at this

/-- Closed-form description of the loop of lines 94–106 when the
speech-synthesis call for the variant at 0-based index `k` throws after the
first `k` calls succeeded: the error propagates and exactly the files of the
first `k` iterations have been written. -/
theorem genLoop_err (baseUrl batchId : String) (dir : List String)
    (tts : Nat → Option String) (e : String) :
    ∀ (vs : List Variant) (s k : Nat), k < vs.length →
      (∀ j, j < k → tts (s + j) = none) → tts (s + k) = some e →
      ∃ ws,
        genLoop baseUrl batchId dir tts vs s =
          { result := .error e, written := ws, ttsCalls := k + 1 }
        ∧ ws.length = k
        ∧ (∀ i, i < k → ws[i]? = some (dir ++ [mkFileName (s + i + 1)])) := by
  intro vs
  induction vs with
  | nil =>
    intro s k hk
    simp at hk
  | cons v rest ih =>
    intro s k hk hbefore hfail
    cases k with
    | zero =>
      have h0 : tts s = some e := by simpa using hfail
      refine ⟨[], ?_, rfl, ?_⟩
      · unfold genLoop
        rw [h0]
      · intro i hi
        omega
    | succ k =>
      have h0 : tts s = none := by simpa using hbefore 0 (by omega)
      obtain ⟨ws, hl, hlen, hget⟩ := ih (s + 1) k
        (by simp only [List.length_cons] at hk; omega)
        (fun j hj => by
          have := hbefore (j + 1) (by omega)
          rwa [show s + (j + 1) = s + 1 + j by omega] at this)
        (by
          have := hfail
          rwa [show s + (k + 1) = s + 1 + k by omega] at this)
      refine ⟨(dir ++ [mkFileName (s + 1)]) :: ws, ?_, by simp [hlen], ?_⟩
      · unfold genLoop
        rw [h0, hl]
        rfl
      · intro i hi
        cases i with
        | zero => simp
        | succ i =>
          simp only [List.getElem?_cons_succ]
          have := hget i (by omega)
          rwa [show s + 1 + i + 1 = s + (i + 1) + 1 by omega] at this

/-- Every entry a successful run of the loop produces is the entry built at
lines 99–105 for some variant of the input list. -/
theorem genLoop_mem (baseUrl batchId : String) (dir : List String)
    (tts : Nat → Option String) :
    ∀ (vs : List Variant) (s : Nat) (es : List FileEntry),
      (genLoop baseUrl batchId dir tts vs s).result = .ok es →
      ∀ e ∈ es, ∃ ord v, v ∈ vs ∧ e = mkEntry baseUrl batchId ord v := by
  intro vs
  induction vs with
  | nil =>
    intro s es h e he
    simp only [genLoop] at h
    cases h
    simp at he
  | cons v rest ih =>
    intro s es h e he
    unfold genLoop at h
    cases h0 : tts s with
    | some err =>
      rw [h0] at h
      simp at h
    | none =>
      rw [h0] at h
      simp only at h
      cases hres : (genLoop baseUrl batchId dir tts rest (s + 1)).result with
      | error e2 =>
        rw [hres] at h
        exact Except.noConfusion h
      | ok es' =>
        rw [hres] at h
        have h2 : es = mkEntry baseUrl batchId (s + 1) v :: es' :=
          (Except.ok.inj h).symm
        subst h2
        rcases List.mem_cons.mp he with he1 | he1
        · exact ⟨s + 1, v, List.mem_cons_self v rest, he1⟩
        · obtain ⟨ord, v2, hv2, heq⟩ := ih (s + 1) es' hres e he1
          exact ⟨ord, v2, List.mem_cons_of_mem v hv2, heq⟩

/-- The validation failure outcome of lines 54–56, shared by the theorems
about the specs check. -/
theorem generate_invalid (dirSegs : List String) (baseUrl : String)
    (specs : Option Specs) (chat : ChatOutcome) (tts : Nat → Option String)
    (batchId : String)
    (h : ¬ (truthyStr (specs.bind (·.make)) ∧ truthyStr (specs.bind (·.model)))) :
    generate dirSegs baseUrl specs chat tts batchId =
      { response := .badRequest "Missing required specs: make, model."
      , chatCalls := 0, ttsCalls := 0, batchIdGenerated := false
      , dirsCreated := [], filesWritten := [] } := by
  unfold generate
  rw [if_pos h]

/-- A list whose `i`-th element is the batch path of the `i+1`-st ordinal
file name has no duplicates, because decimal rendering is injective. -/
theorem nodup_of_ordinal_names (dir : List String) (ws : List (List String)) (n : Nat)
    (hlen : ws.length = n)
    (hget : ∀ i, i < n → ws[i]? = some (dir ++ [mkFileName (i + 1)])) :
    ws.Nodup := by
  rw [List.nodup_iff_injective_getElem]
  rintro ⟨i, hi⟩ ⟨j, hj⟩ hij
  have h1 := hget i (hlen ▸ hi)
  have h2 := hget j (hlen ▸ hj)
  rw [List.getElem?_eq_getElem hi] at h1
  rw [List.getElem?_eq_getElem hj] at h2
  have e1 : ws[i] = dir ++ [mkFileName (i + 1)] := Option.some.inj h1
  have e2 : ws[j] = dir ++ [mkFileName (j + 1)] := Option.some.inj h2
  simp only at hij
  rw [e1, e2] at hij
  have hname : mkFileName (i + 1) = mkFileName (j + 1) := by
    simpa using List.append_cancel_left hij
  have hv := mkFileName_injective hname
  apply Fin.ext
  show i = j
  omega

/-- C1: for every valid specs (make and model set) and every variants list
of length `N ≥ 0` returned by the text-generation step, when every
synthesis call succeeds `generate` returns exactly one file entry per
variant, in order, with 1-based ordinals — the `i`-th entry being the
entry of lines 99–105 (audio file `vo_i.mp3`, label from ordinal `i` and
the variant's style) — and the batch directory receives exactly `N`
distinct audio files (including `N = 0`, without crashing). -/
theorem generate_one_entry_per_variant (dirSegs : List String)
    (baseUrl : String) (specs : Specs) (variants : List Variant)
    (tts : Nat → Option String) (batchId : String)
    (hmake : truthyStr specs.make = true) (hmodel : truthyStr specs.model = true)
    (htts : ∀ j, j < variants.length → tts j = none) :
    ∃ entries,
      (generate dirSegs baseUrl (some specs) (.ok (.arr variants)) tts batchId).response
          = .ok batchId entries
      ∧ entries.length = variants.length
      ∧ (∀ i v, variants[i]? = some v →
          entries[i]? = some (mkEntry baseUrl batchId (i + 1) v))
      ∧ (generate dirSegs baseUrl (some specs) (.ok (.arr variants)) tts
            batchId).filesWritten.length = variants.length
      ∧ (∀ i, i < variants.length →
          (generate dirSegs baseUrl (some specs) (.ok (.arr variants)) tts
              batchId).filesWritten[i]?
            = some (batchDir dirSegs batchId ++ [mkFileName (i + 1)]))
      ∧ (generate dirSegs baseUrl (some specs) (.ok (.arr variants)) tts
            batchId).filesWritten.Nodup := by
  obtain ⟨es, ws, hl, hes, hws, hget, hwget⟩ :=
    genLoop_ok baseUrl batchId (batchDir dirSegs batchId) tts variants 0
      (fun j hj => by simpa using htts j hj)
  have hgen : generate dirSegs baseUrl (some specs) (.ok (.arr variants)) tts batchId =
      { response := .ok batchId es, chatCalls := 1, ttsCalls := variants.length
      , batchIdGenerated := true, dirsCreated := [batchDir dirSegs batchId]
      , filesWritten := ws } := by
    unfold generate
    rw [if_neg (fun hc => hc ⟨hmake, hmodel⟩)]
    show genFinish batchId (batchDir dirSegs batchId)
        (genLoop baseUrl batchId (batchDir dirSegs batchId) tts variants 0) = _
    rw [hl]
    rfl
  refine ⟨es, by rw [hgen], hes, ?_, by rw [hgen]; exact hws, ?_, ?_⟩
  · intro i v hv
    simpa using hget i v hv
  · intro i hi
    rw [hgen]
    simpa using hwget i hi
  · rw [hgen]
    exact nodup_of_ordinal_names (batchDir dirSegs batchId) ws variants.length hws
      (fun i hi => by simpa using hwget i hi)

/-- C1 (witness): a concrete two-variant run writes two distinct files
and answers 200. -/
theorem generate_one_entry_per_variant_witness :
    (generate ["srv", "app"] "http://localhost:3000"
        (some ⟨some "Peterbilt", some "579", [("year", "2020")]⟩)
        (.ok (.arr [⟨"gritty", " Big rig. ", none, none⟩,
                    ⟨"friendly", "Nice truck.", none, none⟩]))
        (fun _ => none) "b1").filesWritten.length = 2
    ∧ (generate ["srv", "app"] "http://localhost:3000"
        (some ⟨some "Peterbilt", some "579", [("year", "2020")]⟩)
        (.ok (.arr [⟨"gritty", " Big rig. ", none, none⟩,
                    ⟨"friendly", "Nice truck.", none, none⟩]))
        (fun _ => none) "b1").filesWritten.Nodup := by
  obtain ⟨es, _, _, _, hlen, _, hnodup⟩ :=
    generate_one_entry_per_variant ["srv", "app"] "http://localhost:3000"
      ⟨some "Peterbilt", some "579", [("year", "2020")]⟩
      [⟨"gritty", " Big rig. ", none, none⟩, ⟨"friendly", "Nice truck.", none, none⟩]
      (fun _ => none) "b1" (by decide) (by decide) (fun j _ => rfl)
  exact ⟨hlen, hnodup⟩

/-- C3: a specs record missing `make` or `model` is rejected with the 400
validation error before any upstream call: no chat call, no synthesis call,
no batch id, no directory, no file. -/
theorem generate_missing_field_gate (dirSegs : List String) (baseUrl : String)
    (specs : Specs) (chat : ChatOutcome) (tts : Nat → Option String)
    (batchId : String) (h : specs.make = none ∨ specs.model = none) :
    generate dirSegs baseUrl (some specs) chat tts batchId =
      { response := .badRequest "Missing required specs: make, model."
      , chatCalls := 0, ttsCalls := 0, batchIdGenerated := false
      , dirsCreated := [], filesWritten := [] } := by
  apply generate_invalid
  intro hc
  have h1 : truthyStr specs.make = true := hc.1
  have h2 : truthyStr specs.model = true := hc.2
  rcases h with h | h
  · rw [h] at h1
    exact absurd h1 (by decide)
  · rw [h] at h2
    exact absurd h2 (by decide)

/-- C3 (witness): a concrete specs record without `make`. -/
theorem generate_missing_field_gate_witness :
    generate ["srv", "app"] "http://localhost:3000"
        (some ⟨none, some "579", []⟩) (.ok (.arr [])) (fun _ => none) "b1" =
      { response := .badRequest "Missing required specs: make, model."
      , chatCalls := 0, ttsCalls := 0, batchIdGenerated := false
      , dirsCreated := [], filesWritten := [] } :=
  generate_missing_field_gate ["srv", "app"] "http://localhost:3000"
    ⟨none, some "579", []⟩ (.ok (.arr [])) (fun _ => none) "b1" (Or.inl rfl)

/-- C10: the presence check of line 54 is a truthiness check — a `make` or
`model` equal to the empty string fails with exactly the same validation
outcome as a missing field. -/
theorem generate_empty_string_is_falsy (dirSegs : List String) (baseUrl : String)
    (specs : Specs) (chat : ChatOutcome) (tts : Nat → Option String)
    (batchId : String) (h : specs.make = some "" ∨ specs.model = some "") :
    generate dirSegs baseUrl (some specs) chat tts batchId =
      { response := .badRequest "Missing required specs: make, model."
      , chatCalls := 0, ttsCalls := 0, batchIdGenerated := false
      , dirsCreated := [], filesWritten := [] }
    ∧ ∀ specs2 : Specs, specs2.make = none ∨ specs2.model = none →
        generate dirSegs baseUrl (some specs2) chat tts batchId =
          generate dirSegs baseUrl (some specs) chat tts batchId := by
  have hmain : generate dirSegs baseUrl (some specs) chat tts batchId =
      { response := .badRequest "Missing required specs: make, model."
      , chatCalls := 0, ttsCalls := 0, batchIdGenerated := false
      , dirsCreated := [], filesWritten := [] } := by
    apply generate_invalid
    intro hc
    have h1 : truthyStr specs.make = true := hc.1
    have h2 : truthyStr specs.model = true := hc.2
    rcases h with h | h
    · rw [h] at h1
      exact absurd h1 (by decide)
    · rw [h] at h2
      exact absurd h2 (by decide)
  refine ⟨hmain, ?_⟩
  intro specs2 h2
  rw [hmain]
  apply generate_invalid
  intro hc
  have h1' : truthyStr specs2.make = true := hc.1
  have h2' : truthyStr specs2.model = true := hc.2
  rcases h2 with h2 | h2
  · rw [h2] at h1'
    exact absurd h1' (by decide)
  · rw [h2] at h2'
    exact absurd h2' (by decide)

/-- C10 (witness): `make` present but empty behaves exactly like `make`
missing. -/
theorem generate_empty_string_is_falsy_witness :
    (generate ["srv", "app"] "http://localhost:3000"
        (some ⟨some "", some "579", []⟩) (.ok (.arr [])) (fun _ => none)
        "b1").response = .badRequest "Missing required specs: make, model."
    ∧ generate ["srv", "app"] "http://localhost:3000"
        (some ⟨none, some "579", []⟩) (.ok (.arr [])) (fun _ => none) "b1" =
      generate ["srv", "app"] "http://localhost:3000"
        (some ⟨some "", some "579", []⟩) (.ok (.arr [])) (fun _ => none) "b1" := by
  obtain ⟨h1, h2⟩ := generate_empty_string_is_falsy ["srv", "app"]
    "http://localhost:3000" ⟨some "", some "579", []⟩ (.ok (.arr []))
    (fun _ => none) "b1" (Or.inl rfl)
  exact ⟨by rw [h1], h2 ⟨none, some "579", []⟩ (Or.inl rfl)⟩

/-- C4 (counterexample): a text-generation response that parses but lacks a
`variants` array is an ill-shaped upstream response, yet at this concrete
input `generate` generates the batch identifier and creates the batch
directory before failing — contradicting the claim that no batch directory
exists after a text-generation failure. -/
theorem generate_malformed_response_creates_dir :
    (generate ["srv", "app"] "http://localhost:3000"
        (some ⟨some "Peterbilt", some "579", []⟩) (.ok .absent)
        (fun _ => none) "b1").response
      = .serverError "Generation failed" lengthTypeError
    ∧ (generate ["srv", "app"] "http://localhost:3000"
        (some ⟨some "Peterbilt", some "579", []⟩) (.ok .absent)
        (fun _ => none) "b1").batchIdGenerated = true
    ∧ (generate ["srv", "app"] "http://localhost:3000"
        (some ⟨some "Peterbilt", some "579", []⟩) (.ok .absent)
        (fun _ => none) "b1").dirsCreated
      = [["srv", "app", "public", "voiceovers", "b1"]] :=
  ⟨rfl, rfl, rfl⟩

/-- C4 (amended): if the text-generation call fails with a non-success
status or an exception thrown before the `variants` field is read
(unparseable JSON, missing `choices`), `generate` fails with a server error
and neither the batch identifier nor any directory or file is created; if
the response parses but lacks a `variants` array, `generate` also fails
with a server error and writes no audio file, but the batch identifier is
generated and an empty batch directory is created first. -/
theorem generate_chat_failure_no_partial_batch (dirSegs : List String)
    (baseUrl : String) (specs : Specs) (tts : Nat → Option String)
    (batchId : String) (e : String)
    (hmake : truthyStr specs.make = true) (hmodel : truthyStr specs.model = true) :
    generate dirSegs baseUrl (some specs) (.fail e) tts batchId =
      { response := .serverError "Generation failed" e
      , chatCalls := 1, ttsCalls := 0, batchIdGenerated := false
      , dirsCreated := [], filesWritten := [] }
    ∧ generate dirSegs baseUrl (some specs) (.ok .absent) tts batchId =
      { response := .serverError "Generation failed" lengthTypeError
      , chatCalls := 1, ttsCalls := 0, batchIdGenerated := true
      , dirsCreated := [batchDir dirSegs batchId], filesWritten := [] } := by
  constructor
  · unfold generate
    rw [if_neg (fun hc => hc ⟨hmake, hmodel⟩)]
  · unfold generate
    rw [if_neg (fun hc => hc ⟨hmake, hmodel⟩)]

/-- C4 (witness): a concrete failed chat call creates nothing. -/
theorem generate_chat_failure_no_partial_batch_witness :
    generate ["srv", "app"] "http://localhost:3000"
        (some ⟨some "Peterbilt", some "579", []⟩)
        (.fail "Chat failed: 500 oops") (fun _ => none) "b1" =
      { response := .serverError "Generation failed" "Chat failed: 500 oops"
      , chatCalls := 1, ttsCalls := 0, batchIdGenerated := false
      , dirsCreated := [], filesWritten := [] } :=
  (generate_chat_failure_no_partial_batch ["srv", "app"] "http://localhost:3000"
    ⟨some "Peterbilt", some "579", []⟩ (fun _ => none) "b1"
    "Chat failed: 500 oops" (by decide) (by decide)).1

/-- C5: if the synthesis call for the variant at 0-based index `k` (i.e.
1-based ordinal `k + 1`) throws after the first `k` calls succeeded, the
whole operation answers the 500 error response — no success payload — while
the `k` audio files already written for the earlier variants are exactly
the files on disk afterwards: they remain and are not deleted. -/
theorem generate_midloop_synthesis_failure (dirSegs : List String)
    (baseUrl : String) (specs : Specs) (variants : List Variant)
    (tts : Nat → Option String) (batchId : String) (k : Nat) (err : String)
    (hmake : truthyStr specs.make = true) (hmodel : truthyStr specs.model = true)
    (hk : k < variants.length)
    (hbefore : ∀ j, j < k → tts j = none) (hfail : tts k = some err) :
    ∃ ws,
      generate dirSegs baseUrl (some specs) (.ok (.arr variants)) tts batchId =
        { response := .serverError "Generation failed" err
        , chatCalls := 1, ttsCalls := k + 1, batchIdGenerated := true
        , dirsCreated := [batchDir dirSegs batchId], filesWritten := ws }
      ∧ ws.length = k
      ∧ (∀ i, i < k →
          ws[i]? = some (batchDir dirSegs batchId ++ [mkFileName (i + 1)])) := by
  obtain ⟨ws, hl, hlen, hget⟩ :=
    genLoop_err baseUrl batchId (batchDir dirSegs batchId) tts err variants 0 k hk
      (fun j hj => by simpa using hbefore j hj) (by simpa using hfail)
  refine ⟨ws, ?_, hlen, ?_⟩
  · unfold generate
    rw [if_neg (fun hc => hc ⟨hmake, hmodel⟩)]
    show genFinish batchId (batchDir dirSegs batchId)
        (genLoop baseUrl batchId (batchDir dirSegs batchId) tts variants 0) = _
    rw [hl]
    rfl
  · intro i hi
    simpa using hget i hi

/-- C5 (witness): with three variants and the second synthesis call
failing, the run answers 500 and exactly the first file remains. -/
theorem generate_midloop_synthesis_failure_witness :
    (generate ["srv", "app"] "http://localhost:3000"
        (some ⟨some "Peterbilt", some "579", []⟩)
        (.ok (.arr [⟨"gritty", "A.", none, none⟩, ⟨"friendly", "B.", none, none⟩,
                    ⟨"high-energy", "C.", none, none⟩]))
        (fun j => if j = 1 then some "TTS failed: 500 boom" else none)
        "b1").response = .serverError "Generation failed" "TTS failed: 500 boom"
    ∧ (generate ["srv", "app"] "http://localhost:3000"
        (some ⟨some "Peterbilt", some "579", []⟩)
        (.ok (.arr [⟨"gritty", "A.", none, none⟩, ⟨"friendly", "B.", none, none⟩,
                    ⟨"high-energy", "C.", none, none⟩]))
        (fun j => if j = 1 then some "TTS failed: 500 boom" else none)
        "b1").filesWritten.length = 1 := by
  obtain ⟨ws, hgen, hlen, _⟩ :=
    generate_midloop_synthesis_failure ["srv", "app"] "http://localhost:3000"
      ⟨some "Peterbilt", some "579", []⟩
      [⟨"gritty", "A.", none, none⟩, ⟨"friendly", "B.", none, none⟩,
       ⟨"high-energy", "C.", none, none⟩]
      (fun j => if j = 1 then some "TTS failed: 500 boom" else none)
      "b1" 1 "TTS failed: 500 boom" (by decide) (by decide) (by decide)
      (fun j hj => by
        have : j = 0 := by omega
        subst this
        rfl)
      rfl
  rw [hgen]
  exact ⟨rfl, hlen⟩

/-- C8: every file entry a `generate` run returns has at most 6 hashtags
regardless of how many the upstream supplied, `beats`/`hashtags` default to
the empty list when absent from the variant, and the `script` field is the
variant's voiceover text trimmed. -/
theorem generate_entry_shape (dirSegs : List String) (baseUrl : String)
    (specs : Option Specs) (chat : ChatOutcome) (tts : Nat → Option String)
    (batchId bid : String) (entries : List FileEntry)
    (h : (generate dirSegs baseUrl specs chat tts batchId).response
          = .ok bid entries) :
    ∀ e ∈ entries, e.hashtags.length ≤ 6
      ∧ ∃ vs v, chat = .ok (.arr vs) ∧ v ∈ vs
        ∧ e.script = v.voiceover.trim
        ∧ e.beats = v.beats.getD []
        ∧ e.hashtags = (v.hashtags.getD []).take 6 := by
  unfold generate at h
  by_cases hval : ¬ (truthyStr (specs.bind (·.make)) ∧ truthyStr (specs.bind (·.model)))
  · rw [if_pos hval] at h
    exact absurd h (by simp)
  · rw [if_neg hval] at h
    cases chat with
    | fail e2 => exact absurd h (by simp)
    | ok field =>
      cases field with
      | absent => exact absurd h (by simp)
      | arr vs =>
        have h2 : (genFinish batchId (batchDir dirSegs batchId)
            (genLoop baseUrl batchId (batchDir dirSegs batchId) tts vs 0)).response
            = .ok bid entries := h
        cases hres : (genLoop baseUrl batchId (batchDir dirSegs batchId) tts vs 0).result with
        | error e2 =>
          unfold genFinish at h2
          rw [hres] at h2
          exact absurd h2 (by simp)
        | ok es =>
          unfold genFinish at h2
          rw [hres] at h2
          have h3 : GenResponse.ok batchId es = .ok bid entries := h2
          have hentries : es = entries := by
            injection h3 with hb he
          intro e he
          obtain ⟨ord, v, hv, heq⟩ :=
            genLoop_mem baseUrl batchId (batchDir dirSegs batchId) tts vs 0 es hres e
              (hentries ▸ he)
          subst heq
          refine ⟨?_, vs, v, rfl, hv, rfl, rfl, rfl⟩
          show ((v.hashtags.getD []).take 6).length ≤ 6
          exact le_trans (List.length_take_le 6 _) (le_refl 6)

/-- C8 (witness): an upstream variant carrying 8 hashtags yields an entry
with exactly the first 6. -/
theorem generate_entry_shape_witness :
    (mkEntry "http://localhost:3000" "b1" 1
        ⟨"gritty", " Big rig. ", none,
         some ["#1", "#2", "#3", "#4", "#5", "#6", "#7", "#8"]⟩).hashtags.length ≤ 6 := by
  have hresp : (generate ["srv", "app"] "http://localhost:3000"
      (some ⟨some "Peterbilt", some "579", []⟩)
      (.ok (.arr [⟨"gritty", " Big rig. ", none,
        some ["#1", "#2", "#3", "#4", "#5", "#6", "#7", "#8"]⟩]))
      (fun _ => none) "b1").response
      = .ok "b1" [mkEntry "http://localhost:3000" "b1" 1
          ⟨"gritty", " Big rig. ", none,
           some ["#1", "#2", "#3", "#4", "#5", "#6", "#7", "#8"]⟩] := by
    rfl
  have := generate_entry_shape ["srv", "app"] "http://localhost:3000"
    (some ⟨some "Peterbilt", some "579", []⟩)
    (.ok (.arr [⟨"gritty", " Big rig. ", none,
      some ["#1", "#2", "#3", "#4", "#5", "#6", "#7", "#8"]⟩]))
    (fun _ => none) "b1" "b1"
    [mkEntry "http://localhost:3000" "b1" 1
      ⟨"gritty", " Big rig. ", none,
       some ["#1", "#2", "#3", "#4", "#5", "#6", "#7", "#8"]⟩] hresp
  exact (this _ (List.mem_cons_self _ _)).1

/-! ## Theorems: the archive builder -/

/-- The loop of lines 131–137 keeps, in order, exactly the URLs whose
resolved path exists on disk, naming each kept entry by the base name of
its resolved path. -/
theorem zipLoop_eq_filter_map (dirSegs : List String)
    (fsFiles : List (List String)) :
    ∀ us, zipLoop dirSegs fsFiles us =
      (us.filter (fun u => diskPath dirSegs u ∈ fsFiles)).map
        (fun u => { name := basenameSegs (diskPath dirSegs u)
                  , srcPath := diskPath dirSegs u }) := by
  intro us
  induction us with
  | nil => rfl
  | cons u us ih =>
    unfold zipLoop
    by_cases h : diskPath dirSegs u ∈ fsFiles
    · rw [if_pos h]
      simp [List.filter_cons, h, ih]
    · rw [if_neg h]
      simp [List.filter_cons, h, ih]

/-- C7: `buildArchive` on an empty file list — or an absent `files` field —
fails fast with the 400 validation error `No files selected.` and produces
no archive stream. -/
theorem buildArchive_empty_list (dirSegs : List String)
    (fsFiles : List (List String)) :
    buildArchive dirSegs fsFiles (some []) = .badRequest "No files selected."
    ∧ buildArchive dirSegs fsFiles none = .badRequest "No files selected."
    ∧ ∀ entries, buildArchive dirSegs fsFiles (some []) ≠ .archive entries := by
  refine ⟨rfl, rfl, ?_⟩
  intro entries h
  exact ZipResult.noConfusion h

/-- C6: on a non-empty URL list the produced archive holds exactly one
entry per listed URL whose resolved path exists on disk at archive time, in
order, each named by the file's base name; URLs whose resolved path does
not exist are silently skipped and cause no error. -/
theorem buildArchive_entries (dirSegs : List String)
    (fsFiles : List (List String)) (us : List (List String)) (hne : us ≠ []) :
    buildArchive dirSegs fsFiles (some us) =
      .archive ((us.filter (fun u => diskPath dirSegs u ∈ fsFiles)).map
        (fun u => { name := basenameSegs (diskPath dirSegs u)
                  , srcPath := diskPath dirSegs u }))
    ∧ ∀ entries, buildArchive dirSegs fsFiles (some us) = .archive entries →
        entries.length = (us.filter (fun u => diskPath dirSegs u ∈ fsFiles)).length
        ∧ ∀ e ∈ entries, e.name = basenameSegs e.srcPath ∧ e.srcPath ∈ fsFiles := by
  have hlen0 : ¬ us.length = 0 := by
    intro h
    exact hne (List.eq_nil_of_length_eq_zero h)
  have hmain : buildArchive dirSegs fsFiles (some us) =
      .archive ((us.filter (fun u => diskPath dirSegs u ∈ fsFiles)).map
        (fun u => { name := basenameSegs (diskPath dirSegs u)
                  , srcPath := diskPath dirSegs u })) := by
    unfold buildArchive
    show (if us.length = 0 then ZipResult.badRequest "No files selected."
          else ZipResult.archive (zipLoop dirSegs fsFiles us)) = _
    rw [if_neg hlen0, zipLoop_eq_filter_map]
  refine ⟨hmain, ?_⟩
  intro entries h
  rw [hmain] at h
  have he : entries = (us.filter (fun u => diskPath dirSegs u ∈ fsFiles)).map
      (fun u => { name := basenameSegs (diskPath dirSegs u)
                , srcPath := diskPath dirSegs u }) :=
    (ZipResult.archive.inj h).symm
  subst he
  refine ⟨by rw [List.length_map], ?_⟩
  intro e he
  obtain ⟨u, hu, rfl⟩ := List.mem_map.mp he
  refine ⟨rfl, ?_⟩
  have := (List.mem_filter.mp hu).2
  exact of_decide_eq_true this

/-- C6 (witness): of two listed URLs only the first resolves to an existing
file; the archive holds exactly that one entry, named by its base name. -/
theorem buildArchive_entries_witness :
    buildArchive ["srv", "app"]
        [["srv", "app", "public", "voiceovers", "b1", "vo_1.mp3"]]
        (some [["public", "voiceovers", "b1", "vo_1.mp3"],
               ["public", "voiceovers", "b1", "vo_2.mp3"]])
      = .archive [{ name := "vo_1.mp3"
                  , srcPath := ["srv", "app", "public", "voiceovers", "b1", "vo_1.mp3"] }] := by
  have h := (buildArchive_entries ["srv", "app"]
    [["srv", "app", "public", "voiceovers", "b1", "vo_1.mp3"]]
    [["public", "voiceovers", "b1", "vo_1.mp3"],
     ["public", "voiceovers", "b1", "vo_2.mp3"]]
    (List.cons_ne_nil _ _)).1
  rw [h]
  decide

/-- Dot-segment removal never outputs a dot segment: every segment of the
parsed URL path is a literal, non-dot segment. -/
theorem urlRemoveDots_go_no_dots :
    ∀ (raw acc : List String),
      (∀ s ∈ acc, isDoubleDotSeg s = false ∧ isSingleDotSeg s = false) →
      ∀ s ∈ urlRemoveDots.go acc raw,
        isDoubleDotSeg s = false ∧ isSingleDotSeg s = false := by
  intro raw
  induction raw with
  | nil =>
    intro acc hacc s hs
    exact hacc s hs
  | cons t rest ih =>
    intro acc hacc s hs
    unfold urlRemoveDots.go at hs
    by_cases hd : isDoubleDotSeg t
    · rw [if_pos hd] at hs
      exact ih acc.dropLast
        (fun s2 hs2 => hacc s2 (List.dropLast_subset acc hs2)) s hs
    · rw [if_neg hd] at hs
      by_cases hsg : isSingleDotSeg t
      · rw [if_pos hsg] at hs
        exact ih acc hacc s hs
      · rw [if_neg hsg] at hs
        refine ih (acc ++ [t]) ?_ s hs
        intro s2 hs2
        rcases List.mem_append.mp hs2 with h2 | h2
        · exact hacc s2 h2
        · have ht : s2 = t := by simpa using h2
          subst ht
          exact ⟨by simpa using hd, by simpa using hsg⟩

/-- No segment of a parsed URL path is a literal `..`. -/
theorem urlRemoveDots_no_dotdot (raw : List String) :
    ∀ s ∈ urlRemoveDots raw, s ≠ ".." := by
  intro s hs heq
  have h := urlRemoveDots_go_no_dots raw []
    (by intro s2 hs2; simp at hs2) s hs
  rw [heq] at h
  exact absurd h.1 (by decide)

theorem pathNormSegs_go_skip (acc rest : List String) (s : String)
    (h : s = "" ∨ s = ".") :
    pathNormSegs.go acc (s :: rest) = pathNormSegs.go acc rest := by
  conv_lhs => unfold pathNormSegs.go
  rw [if_pos h]

theorem pathNormSegs_go_dotdot (acc rest : List String) (s : String)
    (h1 : ¬ (s = "" ∨ s = ".")) (h2 : s = "..") :
    pathNormSegs.go acc (s :: rest) = pathNormSegs.go acc.dropLast rest := by
  conv_lhs => unfold pathNormSegs.go
  rw [if_neg h1, if_pos h2]

theorem pathNormSegs_go_seg (acc rest : List String) (s : String)
    (h1 : ¬ (s = "" ∨ s = ".")) (h2 : ¬ s = "..") :
    pathNormSegs.go acc (s :: rest) = pathNormSegs.go (acc ++ [s]) rest := by
  conv_lhs => unfold pathNormSegs.go
  rw [if_neg h1, if_neg h2]

/-- Path normalisation processes a concatenation left to right. -/
theorem pathNormSegs_go_append :
    ∀ (l1 l2 acc : List String),
      pathNormSegs.go acc (l1 ++ l2) = pathNormSegs.go (pathNormSegs.go acc l1) l2 := by
  intro l1
  induction l1 with
  | nil => intro l2 acc; rfl
  | cons s rest ih =>
    intro l2 acc
    show pathNormSegs.go acc (s :: (rest ++ l2)) = _
    by_cases h1 : s = "" ∨ s = "."
    · rw [pathNormSegs_go_skip _ _ _ h1, pathNormSegs_go_skip _ _ _ h1, ih]
    · by_cases h2 : s = ".."
      · rw [pathNormSegs_go_dotdot _ _ _ h1 h2, pathNormSegs_go_dotdot _ _ _ h1 h2, ih]
      · rw [pathNormSegs_go_seg _ _ _ h1 h2, pathNormSegs_go_seg _ _ _ h1 h2, ih]

/-- Normalising a clean path (no empty, dot or dot-dot segments) appends it
verbatim. -/
theorem pathNormSegs_go_clean :
    ∀ (l acc : List String), (∀ s ∈ l, s ≠ "" ∧ s ≠ "." ∧ s ≠ "..") →
      pathNormSegs.go acc l = acc ++ l := by
  intro l
  induction l with
  | nil =>
    intro acc _
    show acc = acc ++ []
    rw [List.append_nil]
  | cons s rest ih =>
    intro acc h
    obtain ⟨h1, h2, h3⟩ := h s (List.mem_cons_self s rest)
    rw [pathNormSegs_go_seg _ _ _ (by tauto) h3,
      ih (acc ++ [s]) (fun t ht => h t (List.mem_cons_of_mem s ht))]
    simp

/-- Normalising a path with no `..` segments can only extend the
accumulator. -/
theorem pathNormSegs_go_extends :
    ∀ (l acc : List String), (∀ s ∈ l, s ≠ "..") →
      ∃ q, pathNormSegs.go acc l = acc ++ q := by
  intro l
  induction l with
  | nil =>
    intro acc _
    exact ⟨[], by show acc = acc ++ []; rw [List.append_nil]⟩
  | cons s rest ih =>
    intro acc h
    by_cases h1 : s = "" ∨ s = "."
    · obtain ⟨q, hq⟩ := ih acc (fun t ht => h t (List.mem_cons_of_mem s ht))
      exact ⟨q, by rw [pathNormSegs_go_skip _ _ _ h1, hq]⟩
    · obtain ⟨q, hq⟩ := ih (acc ++ [s]) (fun t ht => h t (List.mem_cons_of_mem s ht))
      refine ⟨s :: q, ?_⟩
      rw [pathNormSegs_go_seg _ _ _ h1 (h s (List.mem_cons_self s rest)), hq]
      simp

/-- The resolution of line 133 keeps every resolved path under `__dirname`:
URL dot segments are consumed by the URL parser before `path.join` runs, so
they cannot climb above the server directory. -/
theorem diskPath_under_dirname (dirSegs raw : List String)
    (hdir : ∀ s ∈ dirSegs, s ≠ "" ∧ s ≠ "." ∧ s ≠ "..") :
    ∃ q, diskPath dirSegs raw = dirSegs ++ q := by
  unfold diskPath pathNormSegs
  rw [pathNormSegs_go_append, pathNormSegs_go_clean dirSegs [] hdir]
  exact pathNormSegs_go_extends (urlRemoveDots raw) ([] ++ dirSegs)
    (urlRemoveDots_no_dotdot raw)

/-- C2 (counterexample): the URL path `/.env` resolves inside `__dirname`
but outside the asset store root `__dirname/public/voiceovers`; the file
exists, so `buildArchive` reads it and includes it in the archive instead
of rejecting or ignoring it. -/
theorem buildArchive_reads_outside_asset_root :
    buildArchive ["srv", "app"] [["srv", "app", ".env"]] (some [[".env"]])
      = .archive [{ name := ".env", srcPath := ["srv", "app", ".env"] }]
    ∧ ¬ ∃ q, (["srv", "app", ".env"] : List String)
        = ["srv", "app", "public", "voiceovers"] ++ q := by
  constructor
  · decide
  · rintro ⟨q, hq⟩
    have hlen := congrArg List.length hq
    simp at hlen

/-- C2 (amended): `buildArchive` only reads and archives files that exist
on disk at paths confined to the server directory `__dirname` — a URL path
with traversal segments cannot escape it, because the URL parser removes
dot segments before `path.join` resolves the path — but resolution is
against `__dirname`, not the asset store root, so existing files under
`__dirname` outside `public/voiceovers` are not rejected. -/
theorem buildArchive_confined_to_dirname (dirSegs : List String)
    (fsFiles : List (List String)) (us : List (List String))
    (entries : List ZipEntry)
    (hdir : ∀ s ∈ dirSegs, s ≠ "" ∧ s ≠ "." ∧ s ≠ "..")
    (h : buildArchive dirSegs fsFiles (some us) = .archive entries) :
    ∀ e ∈ entries, (∃ q, e.srcPath = dirSegs ++ q) ∧ e.srcPath ∈ fsFiles := by
  have h' : (if us.length = 0 then ZipResult.badRequest "No files selected."
      else ZipResult.archive (zipLoop dirSegs fsFiles us)) = .archive entries := h
  by_cases h0 : us.length = 0
  · rw [if_pos h0] at h'
    exact ZipResult.noConfusion h'
  · rw [if_neg h0, zipLoop_eq_filter_map] at h'
    have he : entries = (us.filter (fun u => diskPath dirSegs u ∈ fsFiles)).map
        (fun u => { name := basenameSegs (diskPath dirSegs u)
                  , srcPath := diskPath dirSegs u }) :=
      (ZipResult.archive.inj h').symm
    subst he
    intro e hemem
    obtain ⟨u, hu, rfl⟩ := List.mem_map.mp hemem
    refine ⟨?_, of_decide_eq_true (List.mem_filter.mp hu).2⟩
    show ∃ q, diskPath dirSegs u = dirSegs ++ q
    exact diskPath_under_dirname dirSegs u hdir

/-- C2 (witness): a request mixing a traversal URL (skipped: it resolves to
a non-existing path inside `__dirname`) and a real asset URL yields one
archived entry, and its path is confined under `__dirname`. -/
theorem buildArchive_confined_to_dirname_witness :
    ∃ q, (["srv", "app", "public", "voiceovers", "b1", "vo_1.mp3"] : List String)
      = ["srv", "app"] ++ q := by
  have h := buildArchive_confined_to_dirname ["srv", "app"]
    [["srv", "app", "public", "voiceovers", "b1", "vo_1.mp3"]]
    [["..", "..", "etc", "passwd"], ["public", "voiceovers", "b1", "vo_1.mp3"]]
    [{ name := "vo_1.mp3"
     , srcPath := ["srv", "app", "public", "voiceovers", "b1", "vo_1.mp3"] }]
    (by decide) (by decide)
  exact (h _ (List.mem_cons_self _ _)).1

/-! ## Theorems: routing and the shared-secret middleware -/

/-- C9: when a shared secret is configured, a `POST /generate` or
`POST /zip` request with a missing or incorrect `X-APP-KEY` header is
answered 401 and its handler never runs; `GET /health` is registered before
the middleware and always answers 200 `{ok: true}`; with no secret
configured every request passes the check and reaches its handler. -/
theorem auth_gate (appKey : String) (hdr : Option String) (p : String) :
    (serve appKey { method := "GET", urlPath := "/health", xAppKey := hdr }
        = .healthOk)
    ∧ (appKey ≠ "" → hdr ≠ some appKey → (p = "/generate" ∨ p = "/zip") →
        serve appKey { method := "POST", urlPath := p, xAppKey := hdr }
          = .unauthorized)
    ∧ (appKey = "" → (p = "/generate" ∨ p = "/zip") →
        serve appKey { method := "POST", urlPath := p, xAppKey := hdr }
          = .handlerRun p) := by
  have hpg : ("POST" : String) ≠ "GET" := by decide
  refine ⟨?_, ?_, ?_⟩
  · unfold serve
    rw [if_pos ⟨rfl, rfl⟩]
  · intro hk hh hp
    have hauth : authAllows appKey hdr = false := by
      unfold authAllows
      rw [if_neg hk, if_neg hh]
    have h1 : ¬ (("POST" : String) = "GET" ∧ p = "/health") :=
      fun hc => absurd hc.1 hpg
    have h2 : ¬ (authAllows appKey hdr = true) := by
      rw [hauth]
      decide
    unfold serve
    rw [if_neg h1, if_pos h2]
  · intro hk hp
    subst hk
    have h2 : ¬ ¬ (authAllows "" hdr = true) := fun hc => hc rfl
    rcases hp with rfl | rfl
    · have h1 : ¬ (("POST" : String) = "GET" ∧ ("/generate" : String) = "/health") :=
        fun hc => absurd hc.1 hpg
      have h3 : ("POST" : String) = "POST" ∧ ("/generate" : String) = "/generate" :=
        ⟨rfl, rfl⟩
      unfold serve
      rw [if_neg h1, if_neg h2, if_pos h3]
    · have h1 : ¬ (("POST" : String) = "GET" ∧ ("/zip" : String) = "/health") :=
        fun hc => absurd hc.1 hpg
      have h3 : ¬ (("POST" : String) = "POST" ∧ ("/zip" : String) = "/generate") :=
        fun hc => absurd hc.2 (by decide)
      have h4 : ("POST" : String) = "POST" ∧ ("/zip" : String) = "/zip" := ⟨rfl, rfl⟩
      unfold serve
      rw [if_neg h1, if_neg h2, if_neg h3, if_pos h4]

/-- C9 (witness): with secret `"secret"`, `POST /generate` without the
header is 401, `GET /health` without the header is 200, and with no secret
`POST /zip` reaches its handler. -/
theorem auth_gate_witness :
    serve "secret" { method := "POST", urlPath := "/generate", xAppKey := none }
      = .unauthorized
    ∧ serve "secret" { method := "GET", urlPath := "/health", xAppKey := none }
      = .healthOk
    ∧ serve "" { method := "POST", urlPath := "/zip", xAppKey := none }
      = .handlerRun "/zip" := by
  refine ⟨?_, ?_, ?_⟩
  · exact (auth_gate "secret" none "/generate").2.1 (by decide) (by decide) (Or.inl rfl)
  · exact (auth_gate "secret" none "/generate").1
  · exact (auth_gate "" none "/zip").2.2 rfl (Or.inr rfl)
